import Mathlib

/-!
Verification development for a voice-phishing detection pipeline.

The development shallowly embeds the core logic of the repository:

* `process_long_audio` — the chunked transcription path
  (`VoiceToTextConverter._process_long_audio` in `webpage/practive_voice.py`):
  30-second windows, a 0.5-second drop threshold for short tails, per-chunk
  failure skipping, text concatenation and timestamp stitching via a running
  offset.
* `transcribe_audio_model` — the dispatch between the single-shot and the
  chunked path plus the surrounding exception wrapper
  (`VoiceToTextConverter.transcribe_audio`).
* `process_call_recording` — the pipeline entry point that converts any
  raised exception into a `success = False` mapping.
* `parse_risk_score` / `risk_tier` — the judgment-parsing and risk-banding
  logic of `analyze_audio` in `voice_phishing_detector.py`
  (`int(phishing_result.splitlines()[0].split(":")[1])` and the
  `>= 7` / `>= 4` / `else` branches).
* `custom_tools_condition`, the graph node/edge data and `trace_from` — the
  LangGraph state machine built in `webpage/model/graph_model.py`
  (`_build_graph`, `_custom_tools_condition`).

Machine reals (Python floats) are modelled by `ℚ`; every concrete time that
appears in the claims (30.0, 45.0, 60.0, 75.0) is exactly representable.
Python exceptions are modelled by `Option`/`Except`.
-/

namespace VoicePhishing

/-! ## Definitions

### Python string primitives

Python `str` values are modelled as Lean `String`s; the handful of `str`
methods the source uses (`split`, `splitlines`, `strip`, `int(...)`) are
embedded below, working over the underlying `List Char`.
-/

/-- Split a character list at every occurrence of the separator `c`.
Mirrors Python `str.split(sep)` for a one-character separator: the result is
never empty, and empty fields are kept. -/
def splitOnCharList (c : Char) : List Char → List (List Char)
  | [] => [[]]
  | x :: xs =>
    if x = c then
      [] :: splitOnCharList c xs
    else
      match splitOnCharList c xs with
      | [] => [[x]]
      | y :: ys => (x :: y) :: ys

/-- Python `str.split(sep)` with a one-character separator, on `String`. -/
def pySplit (c : Char) (s : String) : List String :=
  (splitOnCharList c s.data).map (fun cs => String.mk cs)

/-- Python `str.splitlines()`, restricted to `'\n'` line boundaries (the
source never feeds it text containing the other Python line terminators):
split on `'\n'` and drop the one trailing empty field produced by a trailing
newline, so that `""` yields `[]` and `"a\n"` yields `["a"]`. -/
def pySplitlines (s : String) : List String :=
  match (pySplit '\n' s).getLast? with
  | some "" => (pySplit '\n' s).dropLast
  | _ => pySplit '\n' s

/-- Python `str.strip()` with no argument: remove leading and trailing
whitespace. -/
def pyStripWs (l : List Char) : List Char :=
  ((l.dropWhile Char.isWhitespace).reverse.dropWhile Char.isWhitespace).reverse

/-- Python `str.strip()` on `String`. -/
def pyStrip (s : String) : String :=
  String.mk (pyStripWs s.data)

/-- Value of a string of decimal digits. -/
def digitsToNat (l : List Char) : Nat :=
  l.foldl (fun n c => 10 * n + (c.toNat - 48)) 0

/-- Python `int(s)` on an already-stripped character list: an optional sign
followed by a nonempty run of decimal digits.  (Python additionally accepts
underscore digit-group separators and non-ASCII decimal digits; the source
never produces either, and no claim depends on them.)  `none` models the
`ValueError` that Python raises. -/
def pyIntCore : List Char → Option Int
  | [] => none
  | '-' :: rest =>
    if rest ≠ [] ∧ rest.all Char.isDigit then some (-(digitsToNat rest : Int)) else none
  | '+' :: rest =>
    if rest ≠ [] ∧ rest.all Char.isDigit then some ((digitsToNat rest : Int)) else none
  | l =>
    if l.all Char.isDigit then some ((digitsToNat l : Int)) else none

/-- Python `int(s)` for a `str` argument: surrounding whitespace is ignored. -/
def pyInt (s : String) : Option Int :=
  pyIntCore (pyStripWs s.data)

/-! ### Risk-score parsing and tiering (`analyze_audio`)

`voice_phishing_detector.py:106` reads
`risk_score = int(phishing_result.splitlines()[0].split(":")[1])`
and lines 107–112 band the score.  A `none` result models the uncaught
`IndexError`/`ValueError` (absorbed by the caller's `except Exception`),
i.e. a reported failure, never a defaulted score.
-/

/-- `int(raw.splitlines()[0].split(":")[1])`: take the first line, split it
on `':'`, take field index 1 (the text between the first and the second
colon, or after the first colon when there is no second one), and convert it
with Python `int`. -/
def parse_risk_score (raw : String) : Option Int :=
  ((pySplitlines raw).head?).bind fun line =>
    ((pySplit ':' line).get? 1).bind fun field =>
      pyInt field

/-- Modelled from the spec: the spec's §4.3 `parseJudgment` contract, for
comparison with `parse_risk_score` (the code).  Per the spec's words, the
extraction "takes the substring after the first `:`" of the first line "and
parses it as an integer in `[0,10]`". -/
def parse_risk_score_specWords (raw : String) : Option Int :=
  ((pySplitlines raw).head?).bind fun line =>
    (afterFirstChar ':' line.data).bind fun f =>
      (pyInt (String.mk f)).bind fun v =>
        if 0 ≤ v ∧ v ≤ 10 then some v else none
where
  /-- Everything after the first occurrence of `c`, if any. -/
  afterFirstChar (c : Char) : List Char → Option (List Char)
    | [] => none
    | x :: xs => if x = c then some xs else afterFirstChar c xs

/-- The three presentation branches of `analyze_audio` (lines 107–112). -/
inductive RiskTier where
  | high
  | medium
  | low
deriving DecidableEq

/-- `if risk_score >= 7: ... elif risk_score >= 4: ... else: ...` -/
def risk_tier (risk_score : Int) : RiskTier :=
  if risk_score ≥ 7 then .high
  else if risk_score ≥ 4 then .medium
  else .low

/-! ### The LangGraph analysis workflow (`graph_model.py`)

`_build_graph` registers nodes `"search"`, `"tools"`, `"answer"`, sets
`"search"` as entry point and `"answer"` as finish point, wires a
conditional edge out of `"search"` through `_custom_tools_condition`, and an
unconditional edge `"tools" → "answer"`.  Messages carry tool-call requests
in their `additional_kwargs` under the key `"tool_calls"`.
-/

/-- Spec §3 `ToolCallRequest`: `{ toolName, arguments }`. -/
structure ToolCallRequest where
  toolName : String
  arguments : List (String × String)
deriving DecidableEq

/-- A conversation message: role, content and the `additional_kwargs`
mapping, of which the source only ever consults the `"tool_calls"` entry. -/
structure Message where
  role : String
  content : String
  additional_kwargs : List (String × List ToolCallRequest)
deriving DecidableEq

/-- Python `"tool_calls" in last_message.additional_kwargs`: key membership
in the mapping, regardless of the associated value. -/
def kwHasKey (m : Message) (k : String) : Bool :=
  m.additional_kwargs.any (fun p => p.1 == k)

/-- The tool-call requests a message carries: the value stored under
`"tool_calls"`, empty when the key is absent. -/
def toolCallRequests (m : Message) : List ToolCallRequest :=
  match m.additional_kwargs.find? (fun p => p.1 == "tool_calls") with
  | some p => p.2
  | none => []

/-- `_custom_tools_condition`: look at `state['messages'][-1]` and return
`"tools"` when its `additional_kwargs` contain the key `"tool_calls"`, else
`"answer"`.  `none` models the `IndexError` on an empty message list. -/
def custom_tools_condition (state_messages : List Message) : Option String :=
  (state_messages.getLast?).map fun last_message =>
    if kwHasKey last_message "tool_calls" then "tools" else "answer"

/-- The nodes registered by `_build_graph`. -/
def graph_nodes : List String := ["search", "tools", "answer"]

/-- `graph_builder.set_entry_point("search")` -/
def graph_entry_point : String := "search"

/-- `graph_builder.set_finish_point("answer")` -/
def graph_finish_point : String := "answer"

/-- One step of the compiled graph, given the value `cond` returned by the
conditional edge's routing function at `"search"`: from `"search"` go to
`cond`; from `"tools"` follow the unconditional edge to `"answer"`;
`"answer"` is the finish point and has no successor. -/
def graph_step (cond : String) (node : String) : Option String :=
  if node = "search" then some cond
  else if node = "tools" then some "answer"
  else none

/-- The fuel-bounded node trace of an execution starting at `node`. -/
def trace_from (cond : String) : Nat → String → List String
  | 0, node => [node]
  | fuel + 1, node =>
    node ::
      (match graph_step cond node with
       | none => []
       | some next => trace_from cond fuel next)

/-- An assistant message whose `additional_kwargs` contain the key
`"tool_calls"` mapped to an *empty* request list. -/
def assistant_empty_tool_calls : Message :=
  { role := "assistant", content := "", additional_kwargs := [("tool_calls", [])] }

/-- An assistant message carrying one actual tool-call request. -/
def assistant_with_tool_call : Message :=
  { role := "assistant", content := "",
    additional_kwargs :=
      [("tool_calls",
        [{ toolName := "tavily_search", arguments := [("query", "voice phishing")] }])] }

/-! ### The chunked transcription engine (`practive_voice.py`) -/

/-- A Whisper segment: `{"start": float, "end": float, "text": str}`
(the keys the source reads/writes).  Times are rationals standing for
Python floats. -/
structure Segment where
  start : ℚ
  «end» : ℚ
  text : String
deriving DecidableEq

/-- A Whisper transcription result / stitched transcript:
`{"text", "segments", "language"}`. -/
structure WhisperResult where
  text : String
  segments : List Segment
  language : String
deriving DecidableEq

/-- `sample_rate = 16000` (line 95). -/
def sample_rate : Nat := 16000

/-- `chunk_length = 30` seconds (line 94). -/
def chunk_length : Nat := 30

/-- `chunk_samples = chunk_length * sample_rate` (line 96). -/
def chunk_samples : Nat := chunk_length * sample_rate

/-- `total_chunks = len(audio_data) // chunk_samples
      + (1 if len(audio_data) % chunk_samples > 0 else 0)` (line 106). -/
def total_chunks (audioLen : Nat) : Nat :=
  audioLen / chunk_samples + (if audioLen % chunk_samples > 0 then 1 else 0)

/-- `start_sample = i * chunk_samples` (line 112). -/
def chunk_start (i : Nat) : Nat := i * chunk_samples

/-- `end_sample = min((i + 1) * chunk_samples, len(audio_data))` (line 113). -/
def chunk_end (audioLen i : Nat) : Nat := min ((i + 1) * chunk_samples) audioLen

/-- Offset-adjust one segment (lines 131–134):
`adjusted_segment["start"] += current_time_offset`, same for `"end"`. -/
def segShift (offset : ℚ) (s : Segment) : Segment :=
  { s with start := s.start + offset, «end» := s.«end» + offset }

/-- The loop state threaded through the chunk loop of `_process_long_audio`:
the accumulated text, the stitched segments and `current_time_offset`. -/
structure StitchState where
  text : String
  segments : List Segment
  current_time_offset : ℚ
deriving DecidableEq

/-- One iteration of the chunk loop (lines 111–141).  The black-box
speech-recognition capability is `transcribe start_sample end_sample`
(the chunk slice `audio_data[start_sample:end_sample]` is determined by its
sample range), returning `Except.error` when `self.model.transcribe`
raises.  A chunk shorter than `sample_rate * 0.5 = 8000` samples is skipped
before the call; a failed call is skipped by `continue`, which also skips
the `current_time_offset = end_sample / sample_rate` update at the end of
the loop body. -/
def process_chunk (audioLen : Nat)
    (transcribe : Nat → Nat → Except String WhisperResult)
    (st : StitchState) (i : Nat) : StitchState :=
  if chunk_end audioLen i - chunk_start i < 8000 then st
  else
    match transcribe (chunk_start i) (chunk_end audioLen i) with
    | .error _ => st
    | .ok chunk_result =>
      { text :=
          if pyStrip chunk_result.text = "" then st.text
          else st.text ++ chunk_result.text ++ " ",
        segments :=
          st.segments ++ chunk_result.segments.map (segShift st.current_time_offset),
        current_time_offset := (chunk_end audioLen i : ℚ) / (sample_rate : ℚ) }

/-- `_process_long_audio` (lines 88–147): fold the chunk loop over
`range(total_chunks)` starting from the empty result and offset `0.0`,
then `strip()` the accumulated text.  `language` is
`transcribe_options.get("language", "ko")`. -/
def process_long_audio (audioLen : Nat) (language : String)
    (transcribe : Nat → Nat → Except String WhisperResult) : WhisperResult :=
  let final :=
    (List.range (total_chunks audioLen)).foldl
      (process_chunk audioLen transcribe) ⟨"", [], 0⟩
  { text := pyStrip final.text, segments := final.segments, language := language }

/-- The dispatch in `transcribe_audio` (lines 76–80) together with its
`try/except` wrapper (lines 85–86): audio with more than `16000 * 30`
samples takes the chunked path; `_process_long_audio` catches every
per-chunk exception itself and raises nothing, so on that path the wrapper
has nothing to re-raise and the chunked result is returned.  The
single-shot outcome (including a failure re-raised as
`음성 인식 실패: ...`) is the black-box argument `single_shot`. -/
def transcribe_audio_model (audioLen : Nat) (language : String)
    (transcribe : Nat → Nat → Except String WhisperResult)
    (single_shot : Except String WhisperResult) : Except String WhisperResult :=
  if audioLen > 16000 * 30 then
    .ok (process_long_audio audioLen language transcribe)
  else single_shot

/-- The number of transcription calls `_process_long_audio` makes: one per
chunk index that survives the `len(chunk_audio) < sample_rate * 0.5` skip
(lines 117–118); the call happens whether or not it subsequently fails. -/
def transcription_call_count (audioLen : Nat) : Nat :=
  ((List.range (total_chunks audioLen)).filter
    (fun i => decide (8000 ≤ chunk_end audioLen i - chunk_start i))).length

/-- The two dictionary shapes `process_call_recording` returns:
`{"success": True, "text", "segments", "output_file", "base_filename"}` or
`{"success": False, "error"}`. -/
inductive PCResult where
  | ok (text : String) (segments : List Segment) (output_file : String)
      (base_filename : Option String)
  | err (error : String)
deriving DecidableEq

/-- `process_call_recording` (lines 207–235): run transcription, save the
transcript, and wrap the whole body in `try/except`, turning any raised
exception into the `success: False` mapping carrying `str(e)`.  The two
fallible collaborators (`transcribe_audio` and `save_transcript`) are
passed as their outcomes. -/
def process_call_recording
    (transcribe_result : Except String WhisperResult)
    (save_transcript : WhisperResult → Except String String)
    (base_filename : Option String) : PCResult :=
  match transcribe_result with
  | .error e => .err e
  | .ok result =>
    match save_transcript result with
    | .error e => .err e
    | .ok saved_file => .ok result.text result.segments saved_file base_filename

/-- The transcriber used in the C1 counterexample scenario: a 75-second
buffer (1 200 000 samples) whose second 30-second window fails. -/
def cex_transcriber : Nat → Nat → Except String WhisperResult :=
  fun start_sample _ =>
    if start_sample = 0 then .ok { text := "window one", segments := [], language := "ko" }
    else if start_sample = 480000 then .error "transcribe failed"
    else .ok { text := "window three",
               segments := [{ start := 0, «end» := 1, text := "tail" }],
               language := "ko" }

/-- Per-chunk well-formedness used by the stitching-order claim: the chunk
result's segments come sorted by start time and each segment's times lie
within the chunk's own (local) timeline. -/
def SegsWithinChunk (start_sample end_sample : Nat) (r : WhisperResult) : Prop :=
  List.Pairwise (fun a b => a.start ≤ b.start) r.segments
    ∧ ∀ s ∈ r.segments,
        0 ≤ s.start ∧ s.start ≤ s.«end»
          ∧ s.«end» ≤ ((end_sample - start_sample : Nat) : ℚ) / (sample_rate : ℚ)

/-- A transcriber (for the C9 witness) that fails on the second window and
yields a well-formed one-segment result everywhere else. -/
def sorted_witness_transcriber : Nat → Nat → Except String WhisperResult :=
  fun start_sample _ =>
    if start_sample = 480000 then .error "transcribe failed"
    else .ok { text := "w", segments := [{ start := 0, «end» := 0, text := "w" }],
               language := "ko" }

/-! ## Helper lemmas -/

theorem string_eq_of_data {s t : String} (h : s.data = t.data) : s = t := by
  cases s
  cases t
  exact congrArg String.mk h

theorem string_data_append (a b : String) : (a ++ b).data = a.data ++ b.data := rfl

theorem splitOnCharList_ne_nil (c : Char) (l : List Char) :
    splitOnCharList c l ≠ [] := by
  cases l with
  | nil => simp [splitOnCharList]
  | cons x xs =>
    simp only [splitOnCharList]
    split
    · simp
    · split
      · simp
      · simp

theorem splitOnCharList_append_cons (c : Char) (a r : List Char) (ha : c ∉ a) :
    splitOnCharList c (a ++ c :: r) = a :: splitOnCharList c r := by
  induction a with
  | nil => simp [splitOnCharList]
  | cons x xs ih =>
    have hx : x ≠ c := by
      intro h
      exact ha (h ▸ List.mem_cons_self x xs)
    have hxs : c ∉ xs := fun h => ha (List.mem_cons_of_mem x h)
    simp only [List.cons_append, splitOnCharList, if_neg hx]
    have h2 : splitOnCharList c (xs.append (c :: r)) = xs :: splitOnCharList c r := ih hxs
    rw [h2]

theorem splitOnCharList_not_mem (c : Char) (l : List Char) (h : c ∉ l) :
    splitOnCharList c l = [l] := by
  induction l with
  | nil => simp [splitOnCharList]
  | cons x xs ih =>
    have hx : x ≠ c := by
      intro hxc
      exact h (hxc ▸ List.mem_cons_self x xs)
    have hxs : c ∉ xs := fun hm => h (List.mem_cons_of_mem x hm)
    simp only [splitOnCharList, if_neg hx, ih hxs]

/-- Head of the line list of a two-or-more-element split, whether or not the
trailing empty field gets dropped. -/
theorem pySplitlinesAux_head (x y : String) (ys : List String) :
    (match (x :: y :: ys).getLast? with
      | some "" => (x :: y :: ys).dropLast
      | _ => (x :: y :: ys)).head? = some x := by
  split
  · rfl
  · rfl

/-- Head of `splitlines` of `line ++ "\n" ++ rest` is `line`, when `line`
itself contains no newline. -/
theorem pySplitlines_head (a r : List Char) (ha : '\n' ∉ a) :
    (pySplitlines (String.mk (a ++ '\n' :: r))).head? = some (String.mk a) := by
  have hsplit :
      pySplit '\n' (String.mk (a ++ '\n' :: r))
        = String.mk a :: (splitOnCharList '\n' r).map (fun cs => String.mk cs) := by
    simp [pySplit, splitOnCharList_append_cons '\n' a r ha]
  cases htail : (splitOnCharList '\n' r).map (fun cs => String.mk cs) with
  | nil => exact absurd htail (by simp [splitOnCharList_ne_nil])
  | cons y ys =>
    unfold pySplitlines
    rw [hsplit, htail]
    exact pySplitlinesAux_head (String.mk a) y ys

/-- Parsing `line ++ "\n" ++ rest` looks only at `line`. -/
theorem parse_risk_score_concat (line rest : String) (h : '\n' ∉ line.data) :
    parse_risk_score (line ++ "\n" ++ rest)
      = ((pySplit ':' line).get? 1).bind fun field => pyInt field := by
  have hs : (line ++ "\n" ++ rest) = String.mk (line.data ++ '\n' :: rest.data) := by
    apply string_eq_of_data
    simp [string_data_append]
  rw [hs, parse_risk_score, pySplitlines_head line.data rest.data h]
  rfl

theorem splitOnCharList_length_of_mem (c : Char) (l : List Char) (h : c ∈ l) :
    2 ≤ (splitOnCharList c l).length := by
  induction l with
  | nil => cases h
  | cons x xs ih =>
    by_cases hx : x = c
    · have hlen : 1 ≤ (splitOnCharList c xs).length :=
        List.length_pos.mpr (splitOnCharList_ne_nil c xs)
      simp only [splitOnCharList, if_pos hx, List.length_cons]
      omega
    · have hxs : c ∈ xs := by
        cases h with
        | head => exact absurd rfl hx
        | tail _ hm => exact hm
      have h2 := ih hxs
      simp only [splitOnCharList, if_neg hx]
      cases hs : splitOnCharList c xs with
      | nil => exact absurd hs (splitOnCharList_ne_nil c xs)
      | cons y ys =>
        rw [hs] at h2
        simpa using h2

/-- Field index 1 of the colon-split exists exactly when the line contains a
colon (the `[1]` indexing raises `IndexError` otherwise). -/
theorem pySplit_get1_none_iff (line : String) :
    (pySplit ':' line).get? 1 = none ↔ ':' ∉ line.data := by
  rw [List.get?_eq_none]
  constructor
  · intro h hmem
    have h2 := splitOnCharList_length_of_mem ':' line.data hmem
    simp only [pySplit, List.length_map] at h
    omega
  · intro hnm
    simp [pySplit, splitOnCharList_not_mem ':' line.data hnm]

/-- Appending `""` on the left is the identity. -/
theorem string_empty_append (s : String) : "" ++ s = s := rfl

/-- Closed form of `total_chunks` as a ceiling division. -/
theorem total_chunks_eq_ceil (audioLen : Nat) :
    total_chunks audioLen = (audioLen + (chunk_samples - 1)) / chunk_samples := by
  simp only [total_chunks, chunk_samples, chunk_length, sample_rate]
  split
  · omega
  · omega

/-! ## Claim theorems -/

/-! ### C5: score-parse round trip -/

/-- **C5.** Score parsing round-trips with score serialization: for every
integer `s` in `[0,10]`, parsing a raw judgment whose first line is
`score: s` (followed by a newline and arbitrary further lines) yields `s`. -/
theorem score_parse_roundtrip (s : Nat) (hs : s ≤ 10) (rest : String) :
    parse_risk_score ("score: " ++ toString s ++ "\n" ++ rest) = some (s : Int) := by
  have h :=
    parse_risk_score_concat ("score: " ++ toString s) rest
  interval_cases s <;> exact (h (by decide)).trans (by decide)

/-- Witness for C5 at `s = 8`. -/
theorem score_parse_roundtrip_witness :
    parse_risk_score ("score: " ++ toString 8 ++ "\nrationale...") = some (8 : Int) :=
  score_parse_roundtrip 8 (by decide) "rationale..."

/-! ### C7: risk tiering -/

/-- **C7.** Risk tiering is a pure function of the parsed score with the
stated inclusive boundaries: `score ≥ 7 → HIGH`, `4 ≤ score ≤ 6 → MEDIUM`,
`score ≤ 3 → LOW`. -/
theorem risk_tier_bands (s : Int) :
    (7 ≤ s → risk_tier s = .high)
      ∧ (4 ≤ s ∧ s ≤ 6 → risk_tier s = .medium)
      ∧ (s ≤ 3 → risk_tier s = .low) := by
  refine ⟨fun h => ?_, fun h => ?_, fun h => ?_⟩ <;>
    simp only [risk_tier, ge_iff_le] <;>
    [rw [if_pos h];
     rw [if_neg (by omega), if_pos (by omega)];
     rw [if_neg (by omega), if_neg (by omega)]]

/-- Witness for C7 at the boundary scores 7, 4, 6 and 3. -/
theorem risk_tier_bands_witness :
    risk_tier 7 = .high ∧ risk_tier 4 = .medium ∧ risk_tier 6 = .medium
      ∧ risk_tier 3 = .low :=
  ⟨(risk_tier_bands 7).1 (by decide),
   (risk_tier_bands 4).2.1 (by decide),
   (risk_tier_bands 6).2.1 (by decide),
   (risk_tier_bands 3).2.2 (by decide)⟩

/-! ### C6: judgment-parser extraction rule and error conditions -/

/-- **C6 (amended).** Failure/success characterization of the judgment
parser: the extracted field is the text between the first and the second
`:` of the first line (colon-split field index 1); parsing fails — it never
silently defaults — exactly when the first line is absent, the line has no
`:`, or that field is not an integer; when it succeeds, the score is the
Python-`int` value of that field (no `[0,10]` range restriction). -/
theorem parse_risk_score_error_conditions (raw : String) :
    (parse_risk_score raw = none ↔
      (pySplitlines raw).head? = none
        ∨ ∃ line, (pySplitlines raw).head? = some line
            ∧ (':' ∉ line.data
               ∨ ∃ f, (pySplit ':' line).get? 1 = some f ∧ pyInt f = none))
      ∧ (∀ v : Int, parse_risk_score raw = some v →
          ∃ line f, (pySplitlines raw).head? = some line
            ∧ (pySplit ':' line).get? 1 = some f ∧ pyInt f = some v) := by
  constructor
  · constructor
    · intro hnone
      cases hh : (pySplitlines raw).head? with
      | none => exact Or.inl rfl
      | some line =>
        simp only [parse_risk_score, hh, Option.some_bind] at hnone
        refine Or.inr ⟨line, rfl, ?_⟩
        cases hf : (pySplit ':' line).get? 1 with
        | none => exact Or.inl ((pySplit_get1_none_iff line).mp hf)
        | some f =>
          rw [hf, Option.some_bind] at hnone
          exact Or.inr ⟨f, rfl, hnone⟩
    · rintro (hab | ⟨line, hline, hnc | ⟨f, hf, hvn⟩⟩)
      · simp only [parse_risk_score, hab, Option.none_bind]
      · simp only [parse_risk_score, hline, Option.some_bind,
          (pySplit_get1_none_iff line).mpr hnc, Option.none_bind]
      · simp only [parse_risk_score, hline, Option.some_bind, hf, hvn]
  · intro v hsome
    simp only [parse_risk_score] at hsome
    rcases Option.bind_eq_some.mp hsome with ⟨line, hh, h2⟩
    rcases Option.bind_eq_some.mp h2 with ⟨f, hf, hv⟩
    exact ⟨line, f, hh, hf, hv⟩

/-- Witness for C6 (amended): the empty raw text has no first line, so
parsing fails. -/
theorem parse_risk_score_error_conditions_witness :
    parse_risk_score "" = none :=
  (parse_risk_score_error_conditions "").1.mpr (Or.inl (by decide))

/-- **C6 (counterexample).** On `"score: 1:2\n..."` the code parses the
field *between* the first and second colon and returns score `1`, while the
claim's extraction rule — the substring after the *first* `:` of the first
line, parsed as an integer in `[0,10]` — rejects the input (`" 1:2"` is not
an integer), so the claimed behaviour and the code disagree. -/
theorem parse_risk_score_first_colon_cex :
    parse_risk_score "score: 1:2\nrationale" = some 1
      ∧ parse_risk_score_specWords "score: 1:2\nrationale" = none := by
  constructor
  · decide
  · decide

/-! ### C3: the tool-routing condition -/

/-- **C3 (counterexample).** A produced assistant message that carries *no*
`ToolCallRequest` at all, but whose `additional_kwargs` contain the key
`"tool_calls"`: the transition goes to `TOOLS`, not to `ANSWER` as the
claim's "at least one `ToolCallRequest`" condition requires. -/
theorem tools_condition_key_cex :
    toolCallRequests assistant_empty_tool_calls = []
      ∧ custom_tools_condition
          [{ role := "human", content := "transcript", additional_kwargs := [] },
           assistant_empty_tool_calls] = some "tools" := by
  constructor
  · decide
  · decide

/-- **C3 (amended).** The transition evaluated at `SEARCH` goes to `TOOLS`
iff the last message of the state carries the `additional_kwargs` key
`"tool_calls"` (even with an empty request list), and to `ANSWER` otherwise;
carrying at least one `ToolCallRequest` is sufficient for `TOOLS`. -/
theorem tools_condition_amended (msgs : List Message) (m : Message)
    (h : msgs.getLast? = some m) :
    (custom_tools_condition msgs = some "tools" ↔ kwHasKey m "tool_calls" = true)
      ∧ (custom_tools_condition msgs = some "answer" ↔ kwHasKey m "tool_calls" = false)
      ∧ (toolCallRequests m ≠ [] → custom_tools_condition msgs = some "tools") := by
  have hcond :
      custom_tools_condition msgs
        = some (if kwHasKey m "tool_calls" then "tools" else "answer") := by
    unfold custom_tools_condition
    rw [h]
    rfl
  refine ⟨?_, ?_, ?_⟩
  · rw [hcond]
    cases hk : kwHasKey m "tool_calls" with
    | true => simp
    | false => simp
  · rw [hcond]
    cases hk : kwHasKey m "tool_calls" with
    | true => simp
    | false => simp
  · intro hne
    have hk : kwHasKey m "tool_calls" = true := by
      unfold toolCallRequests at hne
      cases hfind : m.additional_kwargs.find? (fun p => p.1 == "tool_calls") with
      | none => rw [hfind] at hne; exact absurd rfl hne
      | some p =>
        have hmem := List.mem_of_find?_eq_some hfind
        have hpred := List.find?_some hfind
        exact List.any_eq_true.mpr ⟨p, hmem, hpred⟩
    rw [hcond, hk]
    rfl

/-- Witness for C3 (amended): a message with one request routes to `TOOLS`. -/
theorem tools_condition_amended_witness :
    custom_tools_condition [assistant_with_tool_call] = some "tools" :=
  (tools_condition_amended [assistant_with_tool_call] assistant_with_tool_call
    rfl).2.2 (by decide)

/-! ### C4: graph shape and termination -/

/-- **C4.** The compiled analysis graph has exactly the nodes `search`
(entry), `tools`, `answer` (finish); `tools` steps unconditionally to
`answer`; the routing function only ever returns `tools` or `answer`; and
for either routing outcome the execution trace from `search` is a cycle-free
path over these nodes that passes through `tools` at most once and
terminates at `answer` — independent of the fuel bound. -/
theorem analysis_graph_dag :
    graph_entry_point = "search" ∧ graph_finish_point = "answer"
      ∧ graph_nodes = ["search", "tools", "answer"]
      ∧ (∀ cond, graph_step cond "tools" = some "answer")
      ∧ (∀ msgs cond, custom_tools_condition msgs = some cond →
          cond = "tools" ∨ cond = "answer")
      ∧ (∀ msgs cond fuel, custom_tools_condition msgs = some cond →
          trace_from cond (fuel + 3) "search"
            = if cond = "tools" then ["search", "tools", "answer"]
              else ["search", "answer"])
      ∧ (∀ msgs cond fuel, custom_tools_condition msgs = some cond →
          (trace_from cond (fuel + 3) "search").getLast? = some "answer"
            ∧ (trace_from cond (fuel + 3) "search").count "tools" ≤ 1
            ∧ (trace_from cond (fuel + 3) "search").Nodup
            ∧ ∀ n ∈ trace_from cond (fuel + 3) "search", n ∈ graph_nodes) := by
  have hcodom : ∀ (msgs : List Message) (cond : String),
      custom_tools_condition msgs = some cond → cond = "tools" ∨ cond = "answer" := by
    intro msgs cond h
    unfold custom_tools_condition at h
    cases hl : msgs.getLast? with
    | none => rw [hl] at h; cases h
    | some m =>
      rw [hl] at h
      have h2 :
          (if kwHasKey m "tool_calls" then "tools" else "answer") = cond :=
        Option.some.inj h
      cases hk : kwHasKey m "tool_calls" with
      | true => rw [hk, if_pos rfl] at h2; exact Or.inl h2.symm
      | false => rw [hk] at h2; exact Or.inr h2.symm
  have htrace : ∀ (msgs : List Message) (cond : String) (fuel : Nat),
      custom_tools_condition msgs = some cond →
      trace_from cond (fuel + 3) "search"
        = if cond = "tools" then ["search", "tools", "answer"]
          else ["search", "answer"] := by
    intro msgs cond fuel h
    rcases hcodom msgs cond h with hc | hc <;> subst hc
    · rfl
    · rfl
  refine ⟨rfl, rfl, rfl, fun cond => rfl, hcodom, htrace, ?_⟩
  intro msgs cond fuel h
  rw [htrace msgs cond fuel h]
  rcases hcodom msgs cond h with hc | hc <;> subst hc
  · refine ⟨rfl, ?_, ?_, ?_⟩ <;> decide
  · refine ⟨rfl, ?_, ?_, ?_⟩ <;> decide

/-- Witness for C4: with a routing outcome of `answer` the trace is the
two-node path `search → answer`. -/
theorem analysis_graph_dag_witness :
    trace_from "answer" (0 + 3) "search"
      = if "answer" = "tools" then ["search", "tools", "answer"]
        else ["search", "answer"] :=
  analysis_graph_dag.2.2.2.2.2.1
    [{ role := "human", content := "transcript", additional_kwargs := [] }]
    "answer" 0 (by decide)

/-! ### C1: the 75-second three-window scenario with a failing window 2 -/

/-- Shared computation for the 75-second scenario: three windows
`[0,480000)`, `[480000,960000)`, `[960000,1200000)`; window 2's call fails,
windows 1 and 3 succeed with nonempty (stripped) texts.  The offset used
for window 3 is 30 (= 480000/16000), since the failing window skipped the
offset update. -/
theorem process_long_audio_win2_fails
    (tr : Nat → Nat → Except String WhisperResult)
    (r1 r3 : WhisperResult) (msg lang : String)
    (h0 : tr 0 480000 = .ok r1)
    (h480 : tr 480000 960000 = .error msg)
    (h960 : tr 960000 1200000 = .ok r3)
    (h1 : ¬ pyStrip r1.text = "") (h3 : ¬ pyStrip r3.text = "") :
    process_long_audio 1200000 lang tr
      = { text := pyStrip (r1.text ++ " " ++ r3.text ++ " "),
          segments := r1.segments.map (segShift 0) ++ r3.segments.map (segShift 30),
          language := lang } := by
  have hcs0 : chunk_start 0 = 0 := by decide
  have hcs1 : chunk_start 1 = 480000 := by decide
  have hcs2 : chunk_start 2 = 960000 := by decide
  have hce0 : chunk_end 1200000 0 = 480000 := by decide
  have hce1 : chunk_end 1200000 1 = 960000 := by decide
  have hce2 : chunk_end 1200000 2 = 1200000 := by decide
  have hoff0 : ((480000 : Nat) : ℚ) / ((sample_rate : Nat) : ℚ) = 30 := by
    norm_num [sample_rate]
  have hstep0 :
      process_chunk 1200000 tr ⟨"", [], 0⟩ 0
        = ⟨r1.text ++ " ", r1.segments.map (segShift 0), 30⟩ := by
    unfold process_chunk
    rw [hcs0, hce0, h0, if_neg (by decide)]
    dsimp only
    rw [if_neg h1, hoff0]
    rfl
  have hstep1 :
      process_chunk 1200000 tr ⟨r1.text ++ " ", r1.segments.map (segShift 0), 30⟩ 1
        = ⟨r1.text ++ " ", r1.segments.map (segShift 0), 30⟩ := by
    unfold process_chunk
    rw [hcs1, hce1, h480, if_neg (by decide)]
  have hstep2 :
      process_chunk 1200000 tr ⟨r1.text ++ " ", r1.segments.map (segShift 0), 30⟩ 2
        = ⟨r1.text ++ " " ++ r3.text ++ " ",
           r1.segments.map (segShift 0) ++ r3.segments.map (segShift 30),
           ((1200000 : Nat) : ℚ) / ((sample_rate : Nat) : ℚ)⟩ := by
    unfold process_chunk
    rw [hcs2, hce2, h960, if_neg (by decide)]
    dsimp only
    rw [if_neg h3]
  have htc : total_chunks 1200000 = 3 := by decide
  have hrange : List.range 3 = [0, 1, 2] := rfl
  simp only [process_long_audio, htc, hrange, List.foldl_cons, List.foldl_nil,
    hstep0, hstep1, hstep2]

/-- **C1 (counterexample).** 75 s at 16 kHz, window 2 fails: the text is
`window-1-text ++ " " ++ window-3-text` as claimed, but window 3's segment
is offset by **30.0 s** — the end time of the last *successful* window —
not by 60.0 s as the claim requires: a failed window's `continue` skips the
offset update, so the offset does not advance by the failed window's
nominal duration. -/
theorem chunk_offset_cex :
    process_long_audio 1200000 "ko" cex_transcriber
      = { text := "window one window three",
          segments := [{ start := 30, «end» := 31, text := "tail" }],
          language := "ko" }
      ∧ (process_long_audio 1200000 "ko" cex_transcriber).segments
          ≠ [{ start := 60, «end» := 61, text := "tail" }] := by
  have heq :
      process_long_audio 1200000 "ko" cex_transcriber
        = { text := "window one window three",
            segments := [{ start := 30, «end» := 31, text := "tail" }],
            language := "ko" } := by
    rw [process_long_audio_win2_fails cex_transcriber
      { text := "window one", segments := [], language := "ko" }
      { text := "window three",
        segments := [{ start := 0, «end» := 1, text := "tail" }], language := "ko" }
      "transcribe failed" "ko" rfl rfl rfl (by decide) (by decide)]
    have htext :
        pyStrip ("window one" ++ " " ++ "window three" ++ " ")
          = "window one window three" := by decide
    rw [htext]
    simp only [List.map_nil, List.map_cons, List.nil_append, segShift]
    norm_num
  refine ⟨heq, ?_⟩
  rw [heq]
  intro hcontra
  simp only [List.cons.injEq, Segment.mk.injEq] at hcontra
  norm_num at hcontra

/-- **C1 (amended).** For a 75-second buffer whose window 2 fails while
windows 1 and 3 succeed (with whitespace-clean nonempty texts), the
transcript text is `window-1-text ++ " " ++ window-3-text`, window 1's
segments keep offset 0, and window 3's segments are offset by exactly
30.0 s — the nominal end of the last successful window — because a failed
window does not advance the running offset. -/
theorem chunk_offset_amended (r1 r3 : WhisperResult) (msg lang : String)
    (h1 : ¬ pyStrip r1.text = "") (h3 : ¬ pyStrip r3.text = "")
    (htrim : pyStrip (r1.text ++ " " ++ r3.text ++ " ") = r1.text ++ " " ++ r3.text) :
    process_long_audio 1200000 lang
      (fun start_sample _ =>
        if start_sample = 0 then .ok r1
        else if start_sample = 480000 then .error msg
        else .ok r3)
      = { text := r1.text ++ " " ++ r3.text,
          segments := r1.segments.map (segShift 0) ++ r3.segments.map (segShift 30),
          language := lang } := by
  rw [process_long_audio_win2_fails _ r1 r3 msg lang rfl rfl rfl h1 h3, htrim]

/-- Witness for C1 (amended) at concrete window results. -/
theorem chunk_offset_amended_witness :
    process_long_audio 1200000 "ko"
      (fun start_sample _ =>
        if start_sample = 0 then
          .ok { text := "hello", segments := [{ start := 0, «end» := 2, text := "hello" }],
                language := "ko" }
        else if start_sample = 480000 then .error "boom"
        else
          .ok { text := "bye", segments := [{ start := 1, «end» := 2, text := "bye" }],
                language := "ko" })
      = { text := "hello" ++ " " ++ "bye",
          segments :=
            [{ start := 0, «end» := 2, text := "hello" }].map (segShift 0)
              ++ [{ start := 1, «end» := 2, text := "bye" }].map (segShift 30),
          language := "ko" } :=
  chunk_offset_amended
    { text := "hello", segments := [{ start := 0, «end» := 2, text := "hello" }],
      language := "ko" }
    { text := "bye", segments := [{ start := 1, «end» := 2, text := "bye" }],
      language := "ko" }
    "boom" "ko" (by decide) (by decide) (by decide)

/-! ### C2: behaviour when every window fails -/

/-- Shared computation: when every call fails, the chunk loop leaves its
state untouched and the stitched result is the empty transcript. -/
theorem process_long_audio_all_fail (audioLen : Nat) (lang : String)
    (transcribe : Nat → Nat → Except String WhisperResult)
    (hall : ∀ a b, ∃ e, transcribe a b = .error e) :
    process_long_audio audioLen lang transcribe
      = { text := "", segments := [], language := lang } := by
  have hstep : ∀ st i, process_chunk audioLen transcribe st i = st := by
    intro st i
    unfold process_chunk
    split
    · rfl
    · obtain ⟨e, he⟩ := hall (chunk_start i) (chunk_end audioLen i)
      rw [he]
  have hfold : ∀ l : List Nat,
      l.foldl (process_chunk audioLen transcribe) ⟨"", [], 0⟩
        = (⟨"", [], 0⟩ : StitchState) := by
    intro l
    induction l with
    | nil => rfl
    | cons x xs ih => rw [List.foldl_cons, hstep]; exact ih
  unfold process_long_audio
  rw [hfold]
  rfl

/-- **C2 (counterexample).** 75 s of audio, every window's transcription
call fails: the chunked path raises nothing and returns a transcript with
empty text and no segments — there is no `TranscriptionError` in the code
at all, contrary to the claim that an all-windows failure raises one. -/
theorem all_chunks_fail_cex :
    transcribe_audio_model 1200000 "ko" (fun _ _ => .error "model error")
        (.error "unused single-shot result")
      = .ok { text := "", segments := [], language := "ko" } := by
  unfold transcribe_audio_model
  rw [if_pos (by decide),
    process_long_audio_all_fail 1200000 "ko" _ (fun a b => ⟨"model error", rfl⟩)]

/-- **C2 (amended).** On the chunked path (strictly more than 30 s of audio)
the pipeline never raises: it always returns a transcript, and when the
transcription call fails for every window the returned transcript has empty
text and an empty segment list. -/
theorem all_chunks_fail_amended (audioLen : Nat) (lang : String)
    (transcribe : Nat → Nat → Except String WhisperResult)
    (single_shot : Except String WhisperResult)
    (hlong : 16000 * 30 < audioLen) :
    (∃ r, transcribe_audio_model audioLen lang transcribe single_shot
            = .ok r)
      ∧ ((∀ a b, ∃ e, transcribe a b = .error e) →
          transcribe_audio_model audioLen lang transcribe single_shot
            = .ok { text := "", segments := [], language := lang }) := by
  have hdisp :
      transcribe_audio_model audioLen lang transcribe single_shot
        = .ok (process_long_audio audioLen lang transcribe) := by
    unfold transcribe_audio_model
    rw [if_pos hlong]
  refine ⟨⟨_, hdisp⟩, fun hall => ?_⟩
  rw [hdisp, process_long_audio_all_fail audioLen lang transcribe hall]

/-- Witness for C2 (amended): a concrete always-failing transcriber. -/
theorem all_chunks_fail_amended_witness :
    transcribe_audio_model 960001 "en" (fun _ _ => .error "x")
        (.ok { text := "unused", segments := [], language := "en" })
      = .ok { text := "", segments := [], language := "en" } :=
  (all_chunks_fail_amended 960001 "en" (fun _ _ => .error "x")
    (.ok { text := "unused", segments := [], language := "en" })
    (by decide)).2 (fun a b => ⟨"x", rfl⟩)

/-! ### C8: window partition and transcription-call count -/

/-- **C8.** For audio strictly longer than 30 s, the chunked path partitions
the buffer into consecutive, non-overlapping 30-second windows (the last
possibly shorter, ending exactly at the buffer's end), and the number of
transcription calls is `ceil(len / chunk_samples)` minus one exactly when
the trailing window is shorter than 0.5 s (8000 samples) — the dropped
tail — and minus nothing otherwise. -/
theorem chunk_call_count (audioLen : Nat) (hlong : 16000 * 30 < audioLen) :
    transcription_call_count audioLen
        = total_chunks audioLen
          - (if 0 < audioLen % chunk_samples ∧ audioLen % chunk_samples < 8000
             then 1 else 0)
      ∧ total_chunks audioLen = (audioLen + (chunk_samples - 1)) / chunk_samples
      ∧ chunk_start 0 = 0
      ∧ (∀ i, i + 1 < total_chunks audioLen →
          chunk_end audioLen i = chunk_start (i + 1))
      ∧ chunk_end audioLen (total_chunks audioLen - 1) = audioLen := by
  have hceil := total_chunks_eq_ceil audioLen
  obtain ⟨M, hM⟩ : ∃ M, total_chunks audioLen = M + 1 := by
    refine ⟨total_chunks audioLen - 1, ?_⟩
    rw [hceil]
    simp only [chunk_samples, chunk_length, sample_rate]
    omega
  have hMceil : (audioLen + (chunk_samples - 1)) / chunk_samples = M + 1 := by
    rw [← hceil, hM]
  refine ⟨?_, hceil, by decide, ?_, ?_⟩
  · unfold transcription_call_count
    rw [hM, List.range_succ, List.filter_append, List.length_append]
    have hkeep :
        (List.range M).filter
            (fun i => decide (8000 ≤ chunk_end audioLen i - chunk_start i))
          = List.range M := by
      rw [List.filter_eq_self]
      intro i hi
      rw [List.mem_range] at hi
      simp only [chunk_end, chunk_start, chunk_samples, chunk_length, sample_rate,
        decide_eq_true_eq]
      simp only [chunk_samples, chunk_length, sample_rate] at hMceil
      omega
    rw [hkeep, List.length_range, List.filter_cons, List.filter_nil]
    simp only [chunk_end, chunk_start, chunk_samples, chunk_length, sample_rate,
      decide_eq_true_eq] at *
    split_ifs <;> simp <;> omega
  · intro i hi
    rw [hM] at hi
    simp only [chunk_end, chunk_start, chunk_samples, chunk_length, sample_rate]
    simp only [chunk_samples, chunk_length, sample_rate] at hMceil
    omega
  · rw [hM]
    simp only [chunk_end, chunk_start, chunk_samples, chunk_length, sample_rate]
    simp only [chunk_samples, chunk_length, sample_rate] at hMceil
    omega

/-- Witness for C8 on a 480 000 + 4 000 sample buffer: the 0.25-second tail
window is dropped, so only one transcription call is made. -/
theorem chunk_call_count_witness :
    transcription_call_count 484000
      = total_chunks 484000
        - (if 0 < 484000 % chunk_samples ∧ 484000 % chunk_samples < 8000
           then 1 else 0) :=
  (chunk_call_count 484000 (by decide)).1

/-! ### C9: stitched segments are sorted by start time -/

/-- **C9.** If every successful chunk result lists its segments in
non-decreasing start order with times inside the chunk's local timeline,
then the stitched global segment sequence is non-decreasing in start time —
whatever windows get dropped for being too short or fail transcription. -/
theorem stitched_segments_sorted (audioLen : Nat) (lang : String)
    (transcribe : Nat → Nat → Except String WhisperResult)
    (h : ∀ a b r, transcribe a b = .ok r → SegsWithinChunk a b r) :
    List.Pairwise (fun a b => a.start ≤ b.start)
      (process_long_audio audioLen lang transcribe).segments := by
  have hsr : (0 : ℚ) < (sample_rate : ℚ) := by norm_num [sample_rate]
  -- loop invariant for the fold over the first `n` chunk indices
  have main : ∀ n : Nat,
      List.Pairwise (fun a b => a.start ≤ b.start)
          ((List.range n).foldl (process_chunk audioLen transcribe)
            ⟨"", [], 0⟩).segments
        ∧ (∀ s ∈ ((List.range n).foldl (process_chunk audioLen transcribe)
              ⟨"", [], 0⟩).segments,
            s.start ≤ ((List.range n).foldl (process_chunk audioLen transcribe)
              ⟨"", [], 0⟩).current_time_offset)
        ∧ 0 ≤ ((List.range n).foldl (process_chunk audioLen transcribe)
              ⟨"", [], 0⟩).current_time_offset
        ∧ ((List.range n).foldl (process_chunk audioLen transcribe)
              ⟨"", [], 0⟩).current_time_offset
            ≤ ((n * chunk_samples : Nat) : ℚ) / (sample_rate : ℚ) := by
    intro n
    induction n with
    | zero =>
      refine ⟨List.Pairwise.nil, ?_, le_refl 0, ?_⟩
      · intro s hs
        cases hs
      · positivity
    | succ n ih =>
      rw [List.range_succ, List.foldl_append, List.foldl_cons, List.foldl_nil]
      set st := (List.range n).foldl (process_chunk audioLen transcribe) ⟨"", [], 0⟩
        with hst
      obtain ⟨ihp, ihb, ihnn, ihoff⟩ := ih
      have hoff_mono :
          ((n * chunk_samples : Nat) : ℚ) / (sample_rate : ℚ)
            ≤ (((n + 1) * chunk_samples : Nat) : ℚ) / (sample_rate : ℚ) := by
        have hmul : n * chunk_samples ≤ (n + 1) * chunk_samples := by
          simp only [chunk_samples, chunk_length, sample_rate]
          omega
        exact (div_le_div_right hsr).mpr (by exact_mod_cast hmul)
      unfold process_chunk
      split
      · exact ⟨ihp, ihb, ihnn, le_trans ihoff hoff_mono⟩
      · rename_i hlen
        cases htr : transcribe (chunk_start n) (chunk_end audioLen n) with
        | error e => exact ⟨ihp, ihb, ihnn, le_trans ihoff hoff_mono⟩
        | ok r =>
          obtain ⟨hrp, hrin⟩ := h (chunk_start n) (chunk_end audioLen n) r htr
          have hse : chunk_start n + 8000 ≤ chunk_end audioLen n := by omega
          have hstart_le : (chunk_start n : ℚ) ≤ (chunk_end audioLen n : ℚ) := by
            exact_mod_cast Nat.le_of_lt (by omega)
          have hoff_le_start :
              st.current_time_offset ≤ ((chunk_start n : Nat) : ℚ) / (sample_rate : ℚ) := by
            simpa only [chunk_start] using ihoff
          have hnew_off :
              st.current_time_offset
                ≤ ((chunk_end audioLen n : Nat) : ℚ) / (sample_rate : ℚ) := by
            refine le_trans hoff_le_start ?_
            exact (div_le_div_right hsr).mpr hstart_le
          have hseg_bound : ∀ s ∈ r.segments,
              st.current_time_offset + s.start
                ≤ ((chunk_end audioLen n : Nat) : ℚ) / (sample_rate : ℚ) := by
            intro s hs
            obtain ⟨hs0, hsse, hsend⟩ := hrin s hs
            have hdur :
                ((chunk_end audioLen n - chunk_start n : Nat) : ℚ)
                  = (chunk_end audioLen n : ℚ) - (chunk_start n : ℚ) := by
              rw [Nat.cast_sub (by omega)]
            have hs_le_dur :
                s.start ≤ ((chunk_end audioLen n : ℚ) - (chunk_start n : ℚ))
                  / (sample_rate : ℚ) := by
              rw [← hdur]
              exact le_trans hsse hsend
            have : st.current_time_offset + s.start
                ≤ (chunk_start n : ℚ) / (sample_rate : ℚ)
                  + ((chunk_end audioLen n : ℚ) - (chunk_start n : ℚ))
                    / (sample_rate : ℚ) :=
              add_le_add hoff_le_start hs_le_dur
            refine le_trans this (le_of_eq ?_)
            field_simp
          constructor
          · rw [List.pairwise_append]
            refine ⟨ihp, ?_, ?_⟩
            · rw [List.pairwise_map]
              refine hrp.imp ?_
              intro a b hab
              simpa [segShift] using add_le_add_right hab st.current_time_offset
            · intro a ha b hb
              rw [List.mem_map] at hb
              obtain ⟨s, hsmem, rfl⟩ := hb
              have h0 := (hrin s hsmem).1
              have : a.start ≤ st.current_time_offset := ihb a ha
              simp only [segShift]
              calc a.start ≤ st.current_time_offset := this
                _ ≤ s.start + st.current_time_offset := by linarith
          refine ⟨?_, by positivity, ?_⟩
          · intro s hs
            rw [List.mem_append] at hs
            cases hs with
            | inl hmem =>
              exact le_trans (ihb s hmem) hnew_off
            | inr hmem =>
              rw [List.mem_map] at hmem
              obtain ⟨s0, hs0mem, rfl⟩ := hmem
              simpa [segShift, add_comm] using hseg_bound s0 hs0mem
          · simp only [chunk_end]
            refine (div_le_div_right hsr).mpr ?_
            exact_mod_cast min_le_left _ _
  unfold process_long_audio
  exact (main (total_chunks audioLen)).1

/-- Witness for C9: a run in which the second window fails and the others
return one well-formed segment each. -/
theorem stitched_segments_sorted_witness :
    List.Pairwise (fun a b => a.start ≤ b.start)
      (process_long_audio 1200000 "ko" sorted_witness_transcriber).segments := by
  apply stitched_segments_sorted
  intro a b r hab
  unfold sorted_witness_transcriber at hab
  by_cases ha : a = 480000
  · rw [if_pos ha] at hab
    cases hab
  · rw [if_neg ha] at hab
    cases hab
    refine ⟨List.pairwise_singleton _ _, ?_⟩
    intro s hs
    rw [List.mem_singleton] at hs
    subst hs
    refine ⟨le_refl 0, le_refl 0, ?_⟩
    positivity

/-! ### C10: the entry point never propagates errors -/

/-- **C10.** `process_call_recording` is total: every run either yields the
failure mapping carrying exactly the error message raised by transcription
or by transcript saving, or the success mapping carrying the transcript
text, the segment list and the saved file path. -/
theorem process_call_recording_total
    (transcribe_result : Except String WhisperResult)
    (save_transcript : WhisperResult → Except String String)
    (base_filename : Option String) :
    (∃ e, process_call_recording transcribe_result save_transcript base_filename
            = .err e
          ∧ (transcribe_result = .error e
             ∨ ∃ r, transcribe_result = .ok r ∧ save_transcript r = .error e))
      ∨ (∃ r saved_file, transcribe_result = .ok r
          ∧ save_transcript r = .ok saved_file
          ∧ process_call_recording transcribe_result save_transcript base_filename
              = .ok r.text r.segments saved_file base_filename) := by
  cases transcribe_result with
  | error e => exact Or.inl ⟨e, rfl, Or.inl rfl⟩
  | ok r =>
    cases hs : save_transcript r with
    | error e =>
      refine Or.inl ⟨e, ?_, Or.inr ⟨r, rfl, hs⟩⟩
      simp [process_call_recording, hs]
    | ok p =>
      refine Or.inr ⟨r, p, rfl, hs, ?_⟩
      simp [process_call_recording, hs]

end VoicePhishing
